import Mathlib

/-!
Verification of the WebGPU compute rasterizer's core shader logic
(`shaders/computeRasterizer.wgsl`, both shader variants present in the file).

Modelling conventions:
* `f32` values are embedded as `ℚ` with exact arithmetic; spec statements
  qualified "within floating-point tolerance" become exact equalities.
* `u32` values are `ℕ`, with arithmetic reduced mod 2^32 (`m32`) where the
  source performs 32-bit operations.
* WGSL's `u32(f : f32)` conversion truncates toward zero and saturates at the
  ends of the `u32` range; `u32ofQ` models this (truncation toward zero of a
  non-negative rational is `Rat.floor`, negatives saturate to 0 via `Int.toNat`,
  the high end saturates at 2^32 - 1).
* The shared storage buffer of `atomic<u32>` values is a total map `ℕ → ℕ`;
  `atomicMin`/`atomicStore` are pointwise updates.  Sequential application of
  the per-invocation state transformers models the set of executions; claims
  about order independence are stated as permutation invariance.
-/

/-- 32-bit wraparound of unsigned integer arithmetic. -/
def m32 (n : ℕ) : ℕ := n % 2 ^ 32

/-- WGSL `u32()` conversion from `f32`: truncate toward zero, saturating to
`[0, 2^32 - 1]`. -/
def u32ofQ (q : ℚ) : ℕ := min ⌊q⌋.toNat (2 ^ 32 - 1)

/-- 2-component float vector. -/
structure Vec2 where
  x : ℚ
  y : ℚ
deriving DecidableEq

/-- 3-component float vector. -/
structure Vec3 where
  x : ℚ
  y : ℚ
  z : ℚ
deriving DecidableEq

/-- 4-component float vector. -/
structure Vec4 where
  x : ℚ
  y : ℚ
  z : ℚ
  w : ℚ
deriving DecidableEq

/-- WGSL built-in `cross`. -/
def cross (a b : Vec3) : Vec3 :=
  ⟨a.y * b.z - a.z * b.y, a.z * b.x - a.x * b.z, a.x * b.y - a.y * b.x⟩

/-- A vertex of the input model: `struct Vertex { x: f32; y: f32; z: f32; }`. -/
structure Vertex where
  x : ℚ
  y : ℚ
  z : ℚ
deriving DecidableEq

/-- A 4×4 float matrix (`modelViewProjectionMatrix`), entry `mRC` = row R,
column C of the linear map applied by WGSL's `M * v`. -/
structure Mat4 where
  m00 : ℚ
  m01 : ℚ
  m02 : ℚ
  m03 : ℚ
  m10 : ℚ
  m11 : ℚ
  m12 : ℚ
  m13 : ℚ
  m20 : ℚ
  m21 : ℚ
  m22 : ℚ
  m23 : ℚ
  m30 : ℚ
  m31 : ℚ
  m32 : ℚ
  m33 : ℚ
deriving DecidableEq

/-- WGSL matrix-vector product `M * v`. -/
def mulVec (M : Mat4) (v : Vec4) : Vec4 :=
  ⟨M.m00 * v.x + M.m01 * v.y + M.m02 * v.z + M.m03 * v.w,
   M.m10 * v.x + M.m11 * v.y + M.m12 * v.z + M.m13 * v.w,
   M.m20 * v.x + M.m21 * v.y + M.m22 * v.z + M.m23 * v.w,
   M.m30 * v.x + M.m31 * v.y + M.m32 * v.z + M.m33 * v.w⟩

/-- The shared `outputColorBuffer` of `atomic<u32>` values. -/
def Buffer : Type := ℕ → ℕ

/-- `atomicMin(&buf[i], v)`. -/
def atomicMinB (buf : Buffer) (i v : ℕ) : Buffer :=
  fun j => if j = i then min (buf j) v else buf j

/-- `atomicStore(&buf[i], v)`. -/
def atomicStoreB (buf : Buffer) (i v : ℕ) : Buffer :=
  fun j => if j = i then v else buf j

/-- The buffer produced by the `clear` pass: every entry `255u`. -/
def clearedBuffer : Buffer := fun _ => 255

/-- The local `u` of `fn barycentric`:
`u = cross((v3.x-v1.x, v2.x-v1.x, v1.x-p.x), (v3.y-v1.y, v2.y-v1.y, v1.y-p.y))`. -/
def bary_u (v1 v2 v3 : Vec3) (p : Vec2) : Vec3 :=
  cross
    ⟨v3.x - v1.x, v2.x - v1.x, v1.x - p.x⟩
    ⟨v3.y - v1.y, v2.y - v1.y, v1.y - p.y⟩

/-- `fn barycentric(v1, v2, v3, p)` (identical in both shader variants):
if `abs(u.z) < 1.0` return the sentinel `(-1, 1, 1)`, else
`(1 - (u.x+u.y)/u.z, u.y/u.z, u.x/u.z)`, with `u` as `bary_u` above. -/
def barycentric (v1 v2 v3 : Vec3) (p : Vec2) : Vec3 :=
  if |(bary_u v1 v2 v3 p).z| < 1 then ⟨-1, 1, 1⟩
  else
    ⟨1 - ((bary_u v1 v2 v3 p).x + (bary_u v1 v2 v3 p).y) / (bary_u v1 v2 v3 p).z,
     (bary_u v1 v2 v3 p).y / (bary_u v1 v2 v3 p).z,
     (bary_u v1 v2 v3 p).x / (bary_u v1 v2 v3 p).z⟩

/-- The classifier's determinant: the `z`-component of the cross product inside
`barycentric`, which does not depend on the query point `p`. -/
def tri_det (v1 v2 v3 : Vec3) : ℚ :=
  (v3.x - v1.x) * (v2.y - v1.y) - (v2.x - v1.x) * (v3.y - v1.y)

/-- `fn get_min_max(v1, v2, v3)`: elementwise min/max of the three points'
`x`/`y` coordinates, packed as `(minX, minY, maxX, maxY)`. -/
def get_min_max (v1 v2 v3 : Vec3) : Vec4 :=
  ⟨min (min v1.x v2.x) v3.x,
   min (min v1.y v2.y) v3.y,
   max (max v1.x v2.x) v3.x,
   max (max v1.y v2.y) v3.y⟩

/-- The buffer index of channel `k` of pixel `(x, y)`:
`pixelID = u32(x + y * u32(uniforms.screenWidth)) * 3u` and then `pixelID + k`,
all in `u32` arithmetic. -/
def pixelChan (screenWidth : ℚ) (x y k : ℕ) : ℕ :=
  m32 (m32 (m32 (x + m32 (y * u32ofQ screenWidth)) * 3) + k)

/-- `fn color_pixel(x, y, r, g, b)`: computes `pixelID` from `(x, y)` and the
uniform screen width and atomically mins the three consecutive channel entries
with `r`, `g`, `b`.  No bounds check of any kind is performed. -/
def color_pixel (screenWidth : ℚ) (x y r g b : ℕ) (buf : Buffer) : Buffer :=
  atomicMinB
    (atomicMinB
      (atomicMinB buf (pixelChan screenWidth x y 0) r)
      (pixelChan screenWidth x y 1) g)
    (pixelChan screenWidth x y 2) b

/-- The candidate pixels visited by `draw_triangle` (both variants): nested
loops `for (x = u32(min_max.x); x <= u32(min_max.z); x++)` outside and
`for (y = u32(min_max.y); y <= u32(min_max.w); y++)` inside, both bounds
inclusive.  (The WGSL loop would fail to terminate if `endX` or `endY` were
`2^32 - 1`, where `x + 1u` wraps; the model assumes the bounds are below
that saturation point.) -/
def candidatePixels (v1 v2 v3 : Vec3) : List (ℕ × ℕ) :=
  let min_max := get_min_max v1 v2 v3
  let startX := u32ofQ min_max.x
  let startY := u32ofQ min_max.y
  let endX := u32ofQ min_max.z
  let endY := u32ofQ min_max.w
  (List.range' startX (endX + 1 - startX)).flatMap fun x =>
    (List.range' startY (endY + 1 - startY)).map fun y => (x, y)

/-- The per-pixel shade of the first variant's `draw_triangle`:
`color = (bc.x * v1.z + bc.y * v2.z + bc.z * v3.z) * 50.0 - 400.0`
(the `R = G = B = color` value), barycentric-interpolated over the three
vertices' depth proxies. -/
def shade_v1 (v1 v2 v3 : Vec3) (x y : ℕ) : ℚ :=
  let bc := barycentric v1 v2 v3 ⟨(x : ℚ), (y : ℚ)⟩
  (bc.x * v1.z + bc.y * v2.z + bc.z * v3.z) * 50 - 400

/-- `fn draw_triangle(v1, v2, v3)` of the first shader variant: for every
candidate pixel, compute the barycentric weights and the interpolated shade;
skip the pixel (`continue`) if any weight is negative, else
`color_pixel(x, y, u32(R), u32(G), u32(B))`. -/
def draw_triangle_v1 (screenWidth : ℚ) (v1 v2 v3 : Vec3) (buf : Buffer) :
    Buffer :=
  (candidatePixels v1 v2 v3).foldl
    (fun b xy =>
      let bc := barycentric v1 v2 v3 ⟨(xy.1 : ℚ), (xy.2 : ℚ)⟩
      if bc.x < 0 ∨ bc.y < 0 ∨ bc.z < 0 then b
      else
        color_pixel screenWidth xy.1 xy.2
          (u32ofQ (shade_v1 v1 v2 v3 xy.1 xy.2))
          (u32ofQ (shade_v1 v1 v2 v3 xy.1 xy.2))
          (u32ofQ (shade_v1 v1 v2 v3 xy.1 xy.2)) b)
    buf

/-- `fn draw_triangle(v1, v2, v3, v1World, v2World, v3World)` of the second
shader variant: same scan loop, but the shade is
`R = (v1.z * 50.0) - 400.0` (with `G = R`, `B = G`), taken from the first
vertex's depth proxy alone; the world-space vertices are accepted but unused. -/
def draw_triangle_v2 (screenWidth : ℚ) (v1 v2 v3 : Vec3)
    (v1World v2World v3World : Vertex) (buf : Buffer) : Buffer :=
  (candidatePixels v1 v2 v3).foldl
    (fun b xy =>
      let bc := barycentric v1 v2 v3 ⟨(xy.1 : ℚ), (xy.2 : ℚ)⟩
      if bc.x < 0 ∨ bc.y < 0 ∨ bc.z < 0 then b
      else
        color_pixel screenWidth xy.1 xy.2
          (u32ofQ (v1.z * 50 - 400)) (u32ofQ (v1.z * 50 - 400))
          (u32ofQ (v1.z * 50 - 400)) b)
    buf

/-- `fn project(v)` (identical in both variants):
`screenPos = modelViewProjectionMatrix * (v.x, v.y, v.z, 1.0)`, then
`screenPos.x = (screenPos.x / screenPos.w) * screenWidth`,
`screenPos.y = (screenPos.y / screenPos.w) * screenHeight`, returning
`(screenPos.x, screenPos.y, screenPos.w)`. -/
def project (screenWidth screenHeight : ℚ) (M : Mat4) (v : Vertex) : Vec3 :=
  let screenPos := mulVec M ⟨v.x, v.y, v.z, 1⟩
  ⟨(screenPos.x / screenPos.w) * screenWidth,
   (screenPos.y / screenPos.w) * screenHeight,
   screenPos.w⟩

/-- `fn is_off_screen(v)` of the first shader variant: true iff
`v.x < 0.0 || v.x > screenWidth || v.y < 0.0 || v.y > screenHeight`
(both comparisons against the bounds strict). -/
def is_off_screen (screenWidth screenHeight : ℚ) (v : Vec3) : Bool :=
  if v.x < 0 ∨ v.x > screenWidth ∨ v.y < 0 ∨ v.y > screenHeight then true
  else false

/-- Reading `vertexBuffer.values[i]`; out-of-extent reads are modelled as the
zero vertex (WGSL robust buffer access yields some in-resource or zero value). -/
def readVertex (verts : List Vertex) (i : ℕ) : Vertex :=
  verts.getD i ⟨0, 0, 0⟩

/-- `fn main` of the first shader variant (one invocation, `global_id.x = id`):
`index = global_id.x * 3u`; project the three vertices at
`index + 0u/1u/2u`; if any projected vertex `is_off_screen`, return without
drawing; else `draw_triangle(v1, v2, v3)`.  No vertex-count guard exists in
this variant. -/
def mainV1 (screenWidth screenHeight : ℚ) (M : Mat4) (verts : List Vertex)
    (id : ℕ) (buf : Buffer) : Buffer :=
  let index := m32 (id * 3)
  let v1 := project screenWidth screenHeight M (readVertex verts (m32 (index + 0)))
  let v2 := project screenWidth screenHeight M (readVertex verts (m32 (index + 1)))
  let v3 := project screenWidth screenHeight M (readVertex verts (m32 (index + 2)))
  if is_off_screen screenWidth screenHeight v1
      ∨ is_off_screen screenWidth screenHeight v2
      ∨ is_off_screen screenWidth screenHeight v3 then buf
  else draw_triangle_v1 screenWidth v1 v2 v3 buf

/-- `fn main` of the second shader variant: `index = global_id.x * 3u`; if
`index >= u32(uniforms.vertexCount)` return immediately (excess-invocation
guard); else fetch and project the three vertices and call the second
variant's `draw_triangle`.  The off-screen cull is absent in this variant. -/
def mainV2 (screenWidth screenHeight vertexCount : ℚ) (M : Mat4)
    (verts : List Vertex) (id : ℕ) (buf : Buffer) : Buffer :=
  let index := m32 (id * 3)
  if index ≥ u32ofQ vertexCount then buf
  else
    let v1World := readVertex verts (m32 (index + 0))
    let v2World := readVertex verts (m32 (index + 1))
    let v3World := readVertex verts (m32 (index + 2))
    let v1 := project screenWidth screenHeight M v1World
    let v2 := project screenWidth screenHeight M v2World
    let v3 := project screenWidth screenHeight M v3World
    draw_triangle_v2 screenWidth v1 v2 v3 v1World v2World v3World buf

/-- `fn clear` (identical in both variants, one invocation,
`global_id.x = id`): `index = global_id.x * 3u`, then unconditionally
`atomicStore(&outputColorBuffer.values[index + 0u/1u/2u], 255u)`.  There is no
guard comparing the invocation id against the pixel count. -/
def clearKernel (id : ℕ) (buf : Buffer) : Buffer :=
  let index := m32 (id * 3)
  atomicStoreB
    (atomicStoreB
      (atomicStoreB buf (m32 (index + 0)) 255)
      (m32 (index + 1)) 255)
    (m32 (index + 2)) 255

/-- Sequential application of `color_pixel` for a list of shade proposals at
one pixel, each proposal `v` written to all three channels (`r = g = b = v`,
as every call site of `color_pixel` in the triangle-filling paths does). -/
def compositeSeq (screenWidth : ℚ) (x y : ℕ) (l : List ℕ) (buf : Buffer) :
    Buffer :=
  l.foldl (fun b v => color_pixel screenWidth x y v v v b) buf

/-! ## Helper lemmas -/

lemma bary_u_z (v1 v2 v3 : Vec3) (p : Vec2) :
    (bary_u v1 v2 v3 p).z = tri_det v1 v2 v3 := rfl

lemma foldl_fixed {α β : Type} (f : β → α → β) (l : List α)
    (hf : ∀ b a, f b a = b) : ∀ b, l.foldl f b = b := by
  induction l with
  | nil => intro b; rfl
  | cons hd tl ih =>
    intro b
    rw [List.foldl_cons, hf b hd]
    exact ih b

lemma tri_det_ne_zero {v1 v2 v3 : Vec3} (h : 1 ≤ |tri_det v1 v2 v3|) :
    tri_det v1 v2 v3 ≠ 0 := by
  intro h0
  rw [h0] at h
  norm_num at h

lemma barycentric_of_det {v1 v2 v3 : Vec3} (p : Vec2)
    (h : 1 ≤ |tri_det v1 v2 v3|) :
    barycentric v1 v2 v3 p =
      ⟨1 - ((bary_u v1 v2 v3 p).x + (bary_u v1 v2 v3 p).y) /
          (bary_u v1 v2 v3 p).z,
       (bary_u v1 v2 v3 p).y / (bary_u v1 v2 v3 p).z,
       (bary_u v1 v2 v3 p).x / (bary_u v1 v2 v3 p).z⟩ := by
  unfold barycentric
  rw [bary_u_z, if_neg (not_lt.mpr h)]

lemma barycentric_of_degenerate {v1 v2 v3 : Vec3} (p : Vec2)
    (h : |tri_det v1 v2 v3| < 1) :
    barycentric v1 v2 v3 p = ⟨-1, 1, 1⟩ := by
  unfold barycentric
  rw [bary_u_z, if_pos h]

/-! ## Claims about the barycentric classifier -/

/-- **C4.** For every triangle whose classifier determinant satisfies
`|u.z| ≥ 1` (non-degenerate) and every query point, the three barycentric
weights returned by `barycentric` sum exactly to 1. -/
theorem barycentric_partition_of_unity (v1 v2 v3 : Vec3) (p : Vec2)
    (h : 1 ≤ |tri_det v1 v2 v3|) :
    (barycentric v1 v2 v3 p).x + (barycentric v1 v2 v3 p).y +
      (barycentric v1 v2 v3 p).z = 1 := by
  have hz : (bary_u v1 v2 v3 p).z ≠ 0 := by
    rw [bary_u_z]; exact tri_det_ne_zero h
  rw [barycentric_of_det p h]
  field_simp
  ring

/-- Witness for C4 at a concrete non-degenerate triangle and point. -/
theorem barycentric_partition_of_unity_witness :
    1 ≤ |tri_det ⟨0, 0, 0⟩ ⟨10, 0, 0⟩ ⟨0, 10, 0⟩| ∧
      (barycentric ⟨0, 0, 0⟩ ⟨10, 0, 0⟩ ⟨0, 10, 0⟩ ⟨3, 4⟩).x +
        (barycentric ⟨0, 0, 0⟩ ⟨10, 0, 0⟩ ⟨0, 10, 0⟩ ⟨3, 4⟩).y +
        (barycentric ⟨0, 0, 0⟩ ⟨10, 0, 0⟩ ⟨0, 10, 0⟩ ⟨3, 4⟩).z = 1 :=
  ⟨by norm_num [tri_det],
   barycentric_partition_of_unity ⟨0, 0, 0⟩ ⟨10, 0, 0⟩ ⟨0, 10, 0⟩ ⟨3, 4⟩
     (by norm_num [tri_det])⟩

/-- **C5.** For every non-degenerate triangle, classifying each of the
triangle's own three vertices yields exactly one weight 1 and the other two 0:
vertex 1 gives `(1,0,0)`, vertex 2 gives `(0,1,0)`, vertex 3 gives `(0,0,1)`;
in particular all weights are nonnegative, so each vertex is classified inside
its own triangle. -/
theorem barycentric_at_vertices (v1 v2 v3 : Vec3)
    (h : 1 ≤ |tri_det v1 v2 v3|) :
    barycentric v1 v2 v3 ⟨v1.x, v1.y⟩ = ⟨1, 0, 0⟩ ∧
      barycentric v1 v2 v3 ⟨v2.x, v2.y⟩ = ⟨0, 1, 0⟩ ∧
      barycentric v1 v2 v3 ⟨v3.x, v3.y⟩ = ⟨0, 0, 1⟩ := by
  have hz : tri_det v1 v2 v3 ≠ 0 := tri_det_ne_zero h
  unfold tri_det at hz
  refine ⟨?_, ?_, ?_⟩ <;> rw [barycentric_of_det _ h] <;>
    simp only [bary_u, cross, Vec3.mk.injEq] <;>
    refine ⟨?_, ?_, ?_⟩ <;> field_simp <;> ring

/-- **C6.** When `|u.z| < 1` the classifier returns the sentinel `(-1, 1, 1)`
(at every query point — the determinant does not depend on the point), whose
first component is strictly negative; consequently `draw_triangle` (first
variant) skips every candidate pixel and leaves the pixel buffer unchanged. -/
theorem degenerate_paints_nothing (v1 v2 v3 : Vec3)
    (h : |tri_det v1 v2 v3| < 1) :
    (∀ p : Vec2, barycentric v1 v2 v3 p = ⟨-1, 1, 1⟩ ∧
      (barycentric v1 v2 v3 p).x < 0) ∧
    ∀ (screenWidth : ℚ) (buf : Buffer),
      draw_triangle_v1 screenWidth v1 v2 v3 buf = buf := by
  refine ⟨fun p => ⟨barycentric_of_degenerate p h, ?_⟩, fun w buf => ?_⟩
  · rw [barycentric_of_degenerate p h]
    norm_num
  · unfold draw_triangle_v1
    apply foldl_fixed
    intro b xy
    dsimp only
    rw [if_pos]
    left
    rw [barycentric_of_degenerate _ h]
    norm_num

/-- Witness for C6 at a concrete degenerate (zero-area) triangle. -/
theorem degenerate_paints_nothing_witness :
    |tri_det ⟨2, 2, 0⟩ ⟨2, 2, 0⟩ ⟨2, 2, 0⟩| < 1 ∧
      barycentric ⟨2, 2, 0⟩ ⟨2, 2, 0⟩ ⟨2, 2, 0⟩ ⟨0, 0⟩ = ⟨-1, 1, 1⟩ ∧
      draw_triangle_v1 100 ⟨2, 2, 0⟩ ⟨2, 2, 0⟩ ⟨2, 2, 0⟩ clearedBuffer =
        clearedBuffer :=
  ⟨by norm_num [tri_det],
   ((degenerate_paints_nothing ⟨2, 2, 0⟩ ⟨2, 2, 0⟩ ⟨2, 2, 0⟩
       (by norm_num [tri_det])).1 ⟨0, 0⟩).1,
   (degenerate_paints_nothing ⟨2, 2, 0⟩ ⟨2, 2, 0⟩ ⟨2, 2, 0⟩
       (by norm_num [tri_det])).2 100 clearedBuffer⟩

/-- Witness for C5 at a concrete non-degenerate triangle. -/
theorem barycentric_at_vertices_witness :
    1 ≤ |tri_det ⟨2, 3, 0⟩ ⟨10, 4, 0⟩ ⟨5, 9, 0⟩| ∧
      barycentric ⟨2, 3, 0⟩ ⟨10, 4, 0⟩ ⟨5, 9, 0⟩ ⟨2, 3⟩ = ⟨1, 0, 0⟩ :=
  ⟨by norm_num [tri_det],
   (barycentric_at_vertices ⟨2, 3, 0⟩ ⟨10, 4, 0⟩ ⟨5, 9, 0⟩
     (by norm_num [tri_det])).1⟩

/-! ## Claims about the compositor -/

lemma color_pixel_same_chan (w : ℚ) (x y v : ℕ) (buf : Buffer) (j : ℕ)
    (hj : j = pixelChan w x y 0 ∨ j = pixelChan w x y 1 ∨
      j = pixelChan w x y 2) :
    (color_pixel w x y v v v buf) j = min (buf j) v := by
  unfold color_pixel atomicMinB
  rcases hj with hj | hj | hj <;> subst hj <;> split_ifs <;>
    simp_all [min_assoc]

lemma compositeSeq_apply (w : ℚ) (x y : ℕ) (l : List ℕ) (buf : Buffer)
    (j : ℕ)
    (hj : j = pixelChan w x y 0 ∨ j = pixelChan w x y 1 ∨
      j = pixelChan w x y 2) :
    compositeSeq w x y l buf j = l.foldl min (buf j) := by
  induction l generalizing buf with
  | nil => rfl
  | cons hd tl ih =>
    unfold compositeSeq at *
    rw [List.foldl_cons, List.foldl_cons]
    have htail := ih (color_pixel w x y hd hd hd buf)
    rw [color_pixel_same_chan w x y hd buf j hj] at htail
    exact htail

lemma foldl_min_perm {l l' : List ℕ} (h : l.Perm l') :
    ∀ a : ℕ, l.foldl min a = l'.foldl min a := by
  induction h with
  | nil => intro a; rfl
  | cons x _ ih =>
    intro a
    rw [List.foldl_cons, List.foldl_cons]
    exact ih _
  | swap x y l =>
    intro a
    rw [List.foldl_cons, List.foldl_cons, List.foldl_cons, List.foldl_cons,
      min_right_comm]
  | trans _ _ ih1 ih2 =>
    intro a
    rw [ih1 a, ih2 a]

/-- **C1.** Starting from the cleared value 255, applying the compositor
(`color_pixel`) for any finite sequence of shade values `l` at one pixel
leaves each of the pixel's three channels holding
`min(v1, ..., vn, 255)` — stated as the fold of `min` over any
permutation `l'` of `l` starting at 255, which simultaneously gives the value
and its invariance under every reordering of the composite calls. -/
theorem compositor_min_of_permutation (w : ℚ) (x y : ℕ) (l l' : List ℕ)
    (hperm : l.Perm l') (k : ℕ) (hk : k < 3) :
    compositeSeq w x y l clearedBuffer (pixelChan w x y k) =
      l'.foldl min 255 := by
  have hj : pixelChan w x y k = pixelChan w x y 0 ∨
      pixelChan w x y k = pixelChan w x y 1 ∨
      pixelChan w x y k = pixelChan w x y 2 := by
    interval_cases k
    · exact Or.inl rfl
    · exact Or.inr (Or.inl rfl)
    · exact Or.inr (Or.inr rfl)
  rw [compositeSeq_apply w x y l clearedBuffer _ hj]
  exact foldl_min_perm hperm 255

/-- Witness for C1: shades 200 then 50, compared against the permuted order
50 then 200, on channel 0 of pixel (50, 50) of a 100-wide screen. -/
theorem compositor_min_of_permutation_witness :
    ([200, 50] : List ℕ).Perm [50, 200] ∧ (0 : ℕ) < 3 ∧
      compositeSeq 100 50 50 [200, 50] clearedBuffer
        (pixelChan 100 50 50 0) = ([50, 200] : List ℕ).foldl min 255 :=
  ⟨by decide, by decide,
   compositor_min_of_permutation 100 50 50 [200, 50] [50, 200] (by decide) 0
     (by decide)⟩

/-! ## Claims about the shading rule -/

lemma color_pixel_const_cases (w : ℚ) (x y c : ℕ) (buf : Buffer) (j : ℕ) :
    (color_pixel w x y c c c buf) j = buf j ∨
      (color_pixel w x y c c c buf) j = min (buf j) c := by
  unfold color_pixel atomicMinB
  split_ifs <;> simp [min_assoc]

lemma foldl_const_shade (w : ℚ) (c : ℕ) (l : List (ℕ × ℕ))
    (P : ℕ × ℕ → Prop) [DecidablePred P] :
    ∀ (buf : Buffer) (j : ℕ),
      (l.foldl
          (fun b xy => if P xy then b else color_pixel w xy.1 xy.2 c c c b)
          buf) j = buf j ∨
      (l.foldl
          (fun b xy => if P xy then b else color_pixel w xy.1 xy.2 c c c b)
          buf) j = min (buf j) c := by
  induction l with
  | nil => intro buf j; left; rfl
  | cons hd tl ih =>
    intro buf j
    rw [List.foldl_cons]
    have h := ih
      ((fun b (xy : ℕ × ℕ) =>
        if P xy then b else color_pixel w xy.1 xy.2 c c c b) buf hd) j
    dsimp only at h ⊢
    by_cases hP : P hd
    · rw [if_pos hP] at h ⊢
      exact h
    · rw [if_neg hP] at h ⊢
      rcases color_pixel_const_cases w hd.1 hd.2 c buf j with h2 | h2 <;>
        rw [h2] at h
      · exact h
      · rcases h with h | h
        · right; exact h
        · right; rw [min_assoc, min_self] at h; exact h

/-- **C2 (amended, second variant half).** In the second shader variant every
buffer write performed by `draw_triangle` uses the single constant shade
`u32(v1.z * 50 - 400)` derived from the first vertex's depth proxy: every
entry of the resulting buffer is either untouched or the min of its old value
with that one constant, for every triangle and every entry. -/
theorem draw_v2_uniform_first_vertex_shade (w : ℚ) (v1 v2 v3 : Vec3)
    (v1World v2World v3World : Vertex) (buf : Buffer) (j : ℕ) :
    (draw_triangle_v2 w v1 v2 v3 v1World v2World v3World buf) j = buf j ∨
      (draw_triangle_v2 w v1 v2 v3 v1World v2World v3World buf) j =
        min (buf j) (u32ofQ (v1.z * 50 - 400)) := by
  unfold draw_triangle_v2
  exact foldl_const_shade w (u32ofQ (v1.z * 50 - 400))
    (candidatePixels v1 v2 v3)
    (fun xy => (barycentric v1 v2 v3 ⟨(xy.1 : ℚ), (xy.2 : ℚ)⟩).x < 0 ∨
      (barycentric v1 v2 v3 ⟨(xy.1 : ℚ), (xy.2 : ℚ)⟩).y < 0 ∨
      (barycentric v1 v2 v3 ⟨(xy.1 : ℚ), (xy.2 : ℚ)⟩).z < 0)
    buf j

/-- **C2 (counterexample, first variant half).** In the first shader variant
the shade is barycentric-interpolated, not taken from the first vertex: for
the triangle `(0,0,9), (10,0,11), (0,10,9)` the candidate pixel `(5,5)` is
interior (all weights nonnegative), yet its pre-truncation shade is 100 while
`v1.z * 50 - 400 = 50`; the truncated written values 100 and 50 differ too. -/
theorem shade_v1_interpolated_cex :
    (0 ≤ (barycentric ⟨0, 0, 9⟩ ⟨10, 0, 11⟩ ⟨0, 10, 9⟩ ⟨5, 5⟩).x ∧
      0 ≤ (barycentric ⟨0, 0, 9⟩ ⟨10, 0, 11⟩ ⟨0, 10, 9⟩ ⟨5, 5⟩).y ∧
      0 ≤ (barycentric ⟨0, 0, 9⟩ ⟨10, 0, 11⟩ ⟨0, 10, 9⟩ ⟨5, 5⟩).z) ∧
    (5, 5) ∈ candidatePixels ⟨0, 0, 9⟩ ⟨10, 0, 11⟩ ⟨0, 10, 9⟩ ∧
    shade_v1 ⟨0, 0, 9⟩ ⟨10, 0, 11⟩ ⟨0, 10, 9⟩ 5 5 ≠
      (Vec3.mk 0 0 9).z * 50 - 400 ∧
    u32ofQ (shade_v1 ⟨0, 0, 9⟩ ⟨10, 0, 11⟩ ⟨0, 10, 9⟩ 5 5) ≠
      u32ofQ ((Vec3.mk 0 0 9).z * 50 - 400) := by
  refine ⟨?_, ?_, ?_, ?_⟩
  · norm_num [barycentric, bary_u, cross]
  · norm_num [candidatePixels, get_min_max, u32ofQ] <;> decide
  · norm_num [shade_v1, barycentric, bary_u, cross]
  · norm_num [u32ofQ, shade_v1, barycentric, bary_u, cross] <;> decide

/-! ## Claims about bounds handling in the compositor -/

lemma pixelChan_distinct (w : ℚ) (x y : ℕ) :
    pixelChan w x y 0 ≠ pixelChan w x y 1 ∧
      pixelChan w x y 0 ≠ pixelChan w x y 2 ∧
      pixelChan w x y 1 ≠ pixelChan w x y 2 := by
  have h32 : (2 : ℕ) ^ 32 = 4294967296 := by norm_num
  unfold pixelChan m32
  rw [h32]
  omega

/-- **C3 (counterexample).** `color_pixel` performs no bounds check: the call
`color_pixel(x = 100, y = 0, 10, 10, 10)` on a 100×100 screen has `x` out of
range, yet it lowers entry 300 of the pixel buffer — an in-extent entry
(300 < 3·100·100, it belongs to pixel (0, 1)) — from 255 to 10.  The call is
not a no-op and does modify the pixel buffer. -/
theorem color_pixel_oob_modifies_cex :
    u32ofQ (100 : ℚ) ≤ 100 ∧ (300 : ℕ) < 3 * (100 * 100) ∧
      clearedBuffer 300 = 255 ∧
      (color_pixel 100 100 0 10 10 10 clearedBuffer) 300 = 10 := by
  refine ⟨?_, by norm_num, rfl, ?_⟩
  · norm_num [u32ofQ]
  · norm_num [color_pixel, atomicMinB, pixelChan, m32, u32ofQ, clearedBuffer]

/-- **C3 (amended).** An out-of-range `color_pixel` call — `x ≥ screenWidth`
or `y ≥ screenHeight` — is processed exactly like an in-range one: it still
atomically mins the three channel entries at
`pixelID = u32(x + y·u32(width))·3` (for an `x` overrun wrapping into entries
of later rows whenever that index is still inside the buffer) and leaves
every other entry unchanged; rejection of out-of-range coordinates, if any,
happens in the runtime's robust-buffer-access machinery, not in this code. -/
theorem color_pixel_oob_behaviour (w h : ℚ) (x y r g b : ℕ) (buf : Buffer)
    (hout : u32ofQ w ≤ x ∨ u32ofQ h ≤ y) :
    (color_pixel w x y r g b buf) (pixelChan w x y 0) =
      min (buf (pixelChan w x y 0)) r ∧
    (color_pixel w x y r g b buf) (pixelChan w x y 1) =
      min (buf (pixelChan w x y 1)) g ∧
    (color_pixel w x y r g b buf) (pixelChan w x y 2) =
      min (buf (pixelChan w x y 2)) b ∧
    ∀ j, j ≠ pixelChan w x y 0 → j ≠ pixelChan w x y 1 →
      j ≠ pixelChan w x y 2 → (color_pixel w x y r g b buf) j = buf j := by
  obtain ⟨h01, h02, h12⟩ := pixelChan_distinct w x y
  unfold color_pixel atomicMinB
  refine ⟨?_, ?_, ?_, ?_⟩
  · simp [h01, h02, h12]
  · simp [h01.symm, h12]
  · simp [h02.symm, h12.symm]
  · intro j hj0 hj1 hj2
    simp [hj0, hj1, hj2]

/-- Witness for the amended C3 at the concrete out-of-range call of the
counterexample (out of range in `x` on a 100×100 screen). -/
theorem color_pixel_oob_behaviour_witness :
    (u32ofQ (100 : ℚ) ≤ 100 ∨ u32ofQ (100 : ℚ) ≤ 0) ∧
      (color_pixel 100 100 0 10 10 10 clearedBuffer) (pixelChan 100 100 0 0) =
        min (clearedBuffer (pixelChan 100 100 0 0)) 10 := by
  have hout : u32ofQ (100 : ℚ) ≤ 100 ∨ u32ofQ (100 : ℚ) ≤ 0 :=
    Or.inl (by norm_num [u32ofQ])
  exact ⟨hout,
    (color_pixel_oob_behaviour 100 100 100 0 10 10 10 clearedBuffer hout).1⟩

/-! ## Claim about the projector -/

/-- **C7.** For every vertex `(x, y, z)` and transform `M`, `project` returns
exactly `((x'/w')·screenWidth, (y'/w')·screenHeight, w')` where
`(x', y', z', w') = M * (x, y, z, 1)`, the third component being the
undivided `w'`; `project` is a total function — it succeeds for every input,
including `w' = 0` or negative (division by zero is the embedding's total
rational division). -/
theorem project_formula (screenWidth screenHeight : ℚ) (M : Mat4)
    (v : Vertex) :
    project screenWidth screenHeight M v =
      ⟨((mulVec M ⟨v.x, v.y, v.z, 1⟩).x / (mulVec M ⟨v.x, v.y, v.z, 1⟩).w) *
          screenWidth,
       ((mulVec M ⟨v.x, v.y, v.z, 1⟩).y / (mulVec M ⟨v.x, v.y, v.z, 1⟩).w) *
          screenHeight,
       (mulVec M ⟨v.x, v.y, v.z, 1⟩).w⟩ ∧
    (project screenWidth screenHeight M v).z =
      M.m30 * v.x + M.m31 * v.y + M.m32 * v.z + M.m33 := by
  constructor
  · rfl
  · unfold project mulVec
    simp [mul_one]

/-! ## Claims about the scan converter -/

lemma u32ofQ_mono {a b : ℚ} (h : a ≤ b) : u32ofQ a ≤ u32ofQ b := by
  unfold u32ofQ
  exact min_le_min (Int.toNat_le_toNat (Int.floor_le_floor h)) le_rfl

/-- Modelled from the spec: "`enumerate(box) -> lazy sequence of (x, y)
integer pairs`, row-major, inclusive of both `max` bounds" — row-major means
rows (fixed `y`) are emitted consecutively, i.e. `y` is the outer loop and
`x` the inner one.  Used only for comparison against the order the code
actually produces. -/
def rowMajorEnum (startX endX startY endY : ℕ) : List (ℕ × ℕ) :=
  (List.range' startY (endY + 1 - startY)).flatMap fun y =>
    (List.range' startX (endX + 1 - startX)).map fun x => (x, y)

/-- **C8 (counterexample).** For the triangle with screen vertices `(0,0)`,
`(1,0)`, `(0,1)` the bounding box is `[0,1] × [0,1]`, and the pixels are
visited `(0,0), (0,1), (1,0), (1,1)` — the outer loop runs over `x` —
which differs from the row-major order `(0,0), (1,0), (0,1), (1,1)` the
claim asserts. -/
theorem candidate_order_not_row_major_cex :
    candidatePixels ⟨0, 0, 0⟩ ⟨1, 0, 0⟩ ⟨0, 1, 0⟩ =
        [(0, 0), (0, 1), (1, 0), (1, 1)] ∧
      rowMajorEnum 0 1 0 1 = [(0, 0), (1, 0), (0, 1), (1, 1)] ∧
      candidatePixels ⟨0, 0, 0⟩ ⟨1, 0, 0⟩ ⟨0, 1, 0⟩ ≠ rowMajorEnum 0 1 0 1 := by
  have h1 : candidatePixels ⟨0, 0, 0⟩ ⟨1, 0, 0⟩ ⟨0, 1, 0⟩ =
      [(0, 0), (0, 1), (1, 0), (1, 1)] := by
    norm_num [candidatePixels, get_min_max, u32ofQ] <;> decide
  have h2 : rowMajorEnum 0 1 0 1 = [(0, 0), (1, 0), (0, 1), (1, 1)] := by
    decide
  refine ⟨h1, h2, ?_⟩
  rw [h1, h2]
  decide

/-- **C8 (amended).** The candidate pixels enumerated by `draw_triangle` are
exactly the integer pairs of the bounding box obtained by truncating the
elementwise min/max of the three points' coordinates, inclusive of both max
bounds — but visited in column-major order (outer loop over `x`, inner over
`y`), stated here as: membership in the visit list is exactly the inclusive
box condition, and the visit list is strictly sorted in the
`x`-major lexicographic order. -/
theorem candidate_pixels_box (v1 v2 v3 : Vec3) :
    (∀ x y : ℕ, (x, y) ∈ candidatePixels v1 v2 v3 ↔
      (u32ofQ (min (min v1.x v2.x) v3.x) ≤ x ∧
       x ≤ u32ofQ (max (max v1.x v2.x) v3.x) ∧
       u32ofQ (min (min v1.y v2.y) v3.y) ≤ y ∧
       y ≤ u32ofQ (max (max v1.y v2.y) v3.y))) ∧
    List.Pairwise (fun a b : ℕ × ℕ => a.1 < b.1 ∨ (a.1 = b.1 ∧ a.2 < b.2))
      (candidatePixels v1 v2 v3) := by
  have hsx : u32ofQ (min (min v1.x v2.x) v3.x) ≤
      u32ofQ (max (max v1.x v2.x) v3.x) :=
    u32ofQ_mono ((min_le_right _ _).trans (le_max_right _ _))
  have hsy : u32ofQ (min (min v1.y v2.y) v3.y) ≤
      u32ofQ (max (max v1.y v2.y) v3.y) :=
    u32ofQ_mono ((min_le_right _ _).trans (le_max_right _ _))
  constructor
  · intro x y
    simp only [candidatePixels, get_min_max, List.mem_flatMap, List.mem_map,
      List.mem_range'_1, Prod.mk.injEq]
    constructor
    · rintro ⟨a, ⟨ha1, ha2⟩, b, ⟨hb1, hb2⟩, rfl, rfl⟩
      omega
    · rintro ⟨h1, h2, h3, h4⟩
      exact ⟨x, ⟨h1, by omega⟩, y, ⟨h3, by omega⟩, rfl, rfl⟩
  · simp only [candidatePixels, get_min_max]
    refine List.pairwise_flatMap.mpr ⟨?_, ?_⟩
    · intro a _
      rw [List.pairwise_map]
      exact (List.pairwise_lt_range' _ _).imp fun h => Or.inr ⟨rfl, h⟩
    · refine (List.pairwise_lt_range' _ _).imp ?_
      intro x1 x2 hlt p hp q hq
      simp only [List.mem_map] at hp hq
      obtain ⟨b1, _, rfl⟩ := hp
      obtain ⟨b2, _, rfl⟩ := hq
      exact Or.inl hlt

/-! ## Claims about excess invocations and culling -/

/-- **C9 (counterexample, clear half).** The `clear` entry point has no guard
against excess invocations: with a 1×1 screen (pixel buffer extent
`3·1·1 = 3`), the excess invocation `global_id.x = 1 ≥ width·height` still
stores 255 at indices 3, 4, 5 — here shown changing the value at index 3,
which lies at/past the pixel buffer extent, from 0 to 255.  The invocation is
not a no-op and attempts writes outside the buffer's extent; only the
runtime's robust-buffer-access behaviour stands between it and memory. -/
theorem clear_excess_invocation_writes_cex :
    (1 : ℕ) ≥ 1 * 1 ∧ (3 : ℕ) ≥ 3 * (1 * 1) ∧
      (fun _ => (0 : ℕ) : Buffer) 3 = 0 ∧
      (clearKernel 1 (fun _ => 0)) 3 = 255 := by
  refine ⟨by norm_num, by norm_num, rfl, ?_⟩
  norm_num [clearKernel, atomicStoreB, m32]

/-- **C9 (amended, rasterizer half).** The second variant's rasterizer entry
point guards excess invocations: whenever `index = global_id.x * 3u` is at or
past `u32(vertexCount)`, the invocation returns immediately and the pixel
buffer is completely unchanged (the `clear` entry point, by contrast, has no
such guard — see the counterexample). -/
theorem rasterizer_excess_invocation_noop (screenWidth screenHeight
    vertexCount : ℚ) (M : Mat4) (verts : List Vertex) (id : ℕ) (buf : Buffer)
    (hguard : u32ofQ vertexCount ≤ m32 (id * 3)) :
    mainV2 screenWidth screenHeight vertexCount M verts id buf = buf := by
  unfold mainV2
  rw [if_pos hguard]

/-- Witness for the amended C9: vertex count 3, invocation id 1
(`index = 3 ≥ 3`). -/
theorem rasterizer_excess_invocation_noop_witness :
    u32ofQ (3 : ℚ) ≤ m32 (1 * 3) ∧
      mainV2 100 100 3 ⟨1, 0, 0, 0, 0, 1, 0, 0, 0, 0, 1, 0, 0, 0, 0, 1⟩ []
        1 clearedBuffer = clearedBuffer := by
  have hguard : u32ofQ (3 : ℚ) ≤ m32 (1 * 3) := by
    norm_num [u32ofQ, m32]
  exact ⟨hguard,
    rasterizer_excess_invocation_noop 100 100 3
      ⟨1, 0, 0, 0, 0, 1, 0, 0, 0, 0, 1, 0, 0, 0, 0, 1⟩ [] 1 clearedBuffer
      hguard⟩

/-- **C10.** In the first variant's rasterizer entry point, if any of the
three projected vertices is reported off-screen by `is_off_screen`
(`x < 0`, `x > screenWidth`, `y < 0` or `y > screenHeight`, all strict), the
invocation returns before `draw_triangle` and the pixel buffer is completely
unchanged — the whole triangle is discarded; and a vertex whose coordinates
satisfy `0 ≤ x ≤ screenWidth`, `0 ≤ y ≤ screenHeight` — boundary values
included — is never rejected by this test. -/
theorem offscreen_cull_discards_triangle (screenWidth screenHeight : ℚ)
    (M : Mat4) (verts : List Vertex) (id : ℕ) (buf : Buffer)
    (hoff : is_off_screen screenWidth screenHeight
        (project screenWidth screenHeight M
          (readVertex verts (m32 (m32 (id * 3) + 0)))) = true ∨
      is_off_screen screenWidth screenHeight
        (project screenWidth screenHeight M
          (readVertex verts (m32 (m32 (id * 3) + 1)))) = true ∨
      is_off_screen screenWidth screenHeight
        (project screenWidth screenHeight M
          (readVertex verts (m32 (m32 (id * 3) + 2)))) = true) :
    mainV1 screenWidth screenHeight M verts id buf = buf ∧
    ∀ x y z : ℚ, 0 ≤ x → x ≤ screenWidth → 0 ≤ y → y ≤ screenHeight →
      is_off_screen screenWidth screenHeight ⟨x, y, z⟩ = false := by
  constructor
  · unfold mainV1
    rw [if_pos]
    exact hoff
  · intro x y z hx0 hxw hy0 hyh
    unfold is_off_screen
    rw [if_neg]
    push_neg
    exact ⟨hx0, hxw, hy0, hyh⟩

/-- Witness for C10: a triangle with first projected vertex at `x = -500`
(off-screen) is culled entirely, and the boundary point `x = screenWidth`
is not rejected. -/
theorem offscreen_cull_discards_triangle_witness :
    mainV1 100 100 ⟨1, 0, 0, 0, 0, 1, 0, 0, 0, 0, 1, 0, 0, 0, 0, 1⟩
        [⟨-5, 0, 0⟩, ⟨0, 0, 0⟩, ⟨0, 0, 0⟩] 0 clearedBuffer = clearedBuffer ∧
      is_off_screen 100 100 ⟨100, 50, 1⟩ = false := by
  have hoff : is_off_screen 100 100
      (project 100 100 ⟨1, 0, 0, 0, 0, 1, 0, 0, 0, 0, 1, 0, 0, 0, 0, 1⟩
        (readVertex [⟨-5, 0, 0⟩, ⟨0, 0, 0⟩, ⟨0, 0, 0⟩]
          (m32 (m32 (0 * 3) + 0)))) = true := by
    norm_num [is_off_screen, project, mulVec, readVertex, m32, List.getD]
  refine ⟨(offscreen_cull_discards_triangle 100 100
      ⟨1, 0, 0, 0, 0, 1, 0, 0, 0, 0, 1, 0, 0, 0, 0, 1⟩
      [⟨-5, 0, 0⟩, ⟨0, 0, 0⟩, ⟨0, 0, 0⟩] 0 clearedBuffer
      (Or.inl hoff)).1, ?_⟩
  exact (offscreen_cull_discards_triangle 100 100
      ⟨1, 0, 0, 0, 0, 1, 0, 0, 0, 0, 1, 0, 0, 0, 0, 1⟩
      [⟨-5, 0, 0⟩, ⟨0, 0, 0⟩, ⟨0, 0, 0⟩] 0 clearedBuffer
      (Or.inl hoff)).2 100 50 1 (by norm_num) (by norm_num) (by norm_num)
      (by norm_num)
